import Mathlib

/-!
# Verification of the voteperfx vote-correlation engine

Shallow embedding of the core of `voteperfx` (a Solana vote-latency monitor):
the credit model and performance tiers (`performance.rs`), the audit-filter
predicate (`config.rs`), the circular buffers, signature cache and vote
correlator (`vote_tracker.rs`), and the block/transaction processing entry
points.  Machine integers (`u64`, `usize`) are modelled as `Nat`; the only
subtractions in the modelled code are saturating (`saturating_sub`), checked
(`checked_sub`) or guarded by a comparison, so `Nat` truncated subtraction is
exact.  Fallible operations return `Except String`; a Rust panic is modelled
as `Option.none` on an outer `Option` layer.
-/

namespace Voteperfx

abbrev Slot := Nat

/-! ## Credit model (`performance.rs`) -/

def VOTE_CREDITS_GRACE_SLOTS : Nat := 2

def VOTE_CREDITS_MAXIMUM_PER_SLOT : Nat := 16

/-- Rust `u64::checked_sub`: `none` when the subtraction would underflow. -/
def checkedSub (a b : Nat) : Option Nat :=
  if b ≤ a then some (a - b) else none

/-- `calculate_tvc_credits_from_latency` from `performance.rs`:
grace window of 2 slots at full 16 credits, then 1 credit lost per slot,
floored at 1 via `checked_sub` plus the `credits > 0` guard. -/
def calculate_tvc_credits_from_latency (latency : Nat) : Nat :=
  if latency ≤ VOTE_CREDITS_GRACE_SLOTS then
    VOTE_CREDITS_MAXIMUM_PER_SLOT
  else
    let penalty := latency - VOTE_CREDITS_GRACE_SLOTS
    match checkedSub VOTE_CREDITS_MAXIMUM_PER_SLOT penalty with
    | some credits => if 0 < credits then credits else 1
    | none => 1

/-- `calculate_tvc_credits` from `performance.rs`: latency is
`finalized_slot.saturating_sub(voted_slot)` (= `Nat` subtraction). -/
def calculate_tvc_credits (voted_slot finalized_slot : Slot) : Nat × Nat :=
  let latency := finalized_slot - voted_slot
  (latency, calculate_tvc_credits_from_latency latency)

/-- `ConfirmedVote` from `performance.rs`.  Wall-clock timestamps
(`DateTime<Local>`) are modelled as an abstract `Nat` supplied by the caller. -/
structure ConfirmedVote where
  signature : String
  voted_slot : Slot
  finalized_slot : Slot
  latency : Nat
  tvc_credits : Nat
  timestamp : Nat
  deriving Repr, DecidableEq

inductive TvcPerformanceLevel where
  | Optimal
  | Good
  | Fair
  | Poor
  | Critical
  deriving DecidableEq, Repr

def TvcPerformanceLevel.as_str : TvcPerformanceLevel → String
  | .Optimal => "optimal"
  | .Good => "good"
  | .Fair => "fair"
  | .Poor => "poor"
  | .Critical => "critical"

/-- `categorize_tvc_performance` from `performance.rs`. -/
def categorize_tvc_performance (tvc_credits : Nat) : TvcPerformanceLevel :=
  if tvc_credits = 16 then .Optimal
  else if 12 ≤ tvc_credits ∧ tvc_credits ≤ 15 then .Good
  else if 8 ≤ tvc_credits ∧ tvc_credits ≤ 11 then .Fair
  else if 4 ≤ tvc_credits ∧ tvc_credits ≤ 7 then .Poor
  else .Critical

/-! ## Circular buffers

`CircularBuffer<T>` from `vote_tracker.rs` and the field-for-field identical
`CircularVoteBuffer` from `performance.rs`. -/

structure CircularBuffer (T : Type) where
  data : List (Option T)
  head : Nat
  tail : Nat
  size : Nat
  capacity : Nat
  deriving DecidableEq

namespace CircularBuffer

/-- `CircularBuffer::new(capacity)`: `vec![None; capacity]`, all indices 0. -/
def new (T : Type) (capacity : Nat) : CircularBuffer T :=
  { data := List.replicate capacity none
    head := 0
    tail := 0
    size := 0
    capacity := capacity }

/-- `CircularBuffer::push`: write at `tail`, advance `tail` mod capacity, and
either grow `size` or advance `head` (overwriting the oldest element). -/
def push (b : CircularBuffer T) (item : T) : CircularBuffer T :=
  if b.size < b.capacity then
    { b with data := b.data.set b.tail (some item)
             tail := (b.tail + 1) % b.capacity
             size := b.size + 1 }
  else
    { b with data := b.data.set b.tail (some item)
             tail := (b.tail + 1) % b.capacity
             head := (b.head + 1) % b.capacity }

/-- The `iter` loop of `CircularBuffer`, with the remaining count as fuel:
reads `size` elements starting at `head`, wrapping mod capacity.  (Under the
buffer invariant every index read is in bounds and holds `some _`.) -/
def iterGo (b : CircularBuffer T) : Nat → Nat → List T
  | _, 0 => []
  | idx, fuel + 1 =>
    match b.data[idx]? with
    | some (some x) => x :: iterGo b ((idx + 1) % b.capacity) fuel
    | _ => []

/-- `CircularBuffer::iter`, collected into a list (FIFO order). -/
def iterList (b : CircularBuffer T) : List T :=
  iterGo b b.head b.size

/-- Folding `push` over a list of items, oldest first. -/
def pushList (b : CircularBuffer T) (l : List T) : CircularBuffer T :=
  l.foldl push b

/-- Representation invariant: buffer `b` is what pushing the sequence `l`
into an empty buffer produces.  `size` is the length clamped at capacity,
`tail`/`head` are the push count and window start mod capacity, and the
window of the last `size` pushes is laid out circularly from `head`. -/
def WF (b : CircularBuffer T) (l : List T) : Prop :=
  b.data.length = b.capacity ∧
  b.size = min l.length b.capacity ∧
  b.tail = l.length % b.capacity ∧
  b.head = (l.length - b.size) % b.capacity ∧
  ∀ i, i < b.size →
    b.data[(b.head + i) % b.capacity]? = some l[l.length - b.size + i]?

end CircularBuffer

/-- `CircularVoteBuffer` from `performance.rs`: same algorithm as
`CircularBuffer`, specialized to `ConfirmedVote`, with the data field named
`votes`. -/
structure CircularVoteBuffer where
  votes : List (Option ConfirmedVote)
  head : Nat
  tail : Nat
  size : Nat
  capacity : Nat
  deriving DecidableEq

namespace CircularVoteBuffer

def new (capacity : Nat) : CircularVoteBuffer :=
  { votes := List.replicate capacity none
    head := 0
    tail := 0
    size := 0
    capacity := capacity }

def push (b : CircularVoteBuffer) (vote : ConfirmedVote) : CircularVoteBuffer :=
  if b.size < b.capacity then
    { b with votes := b.votes.set b.tail (some vote)
             tail := (b.tail + 1) % b.capacity
             size := b.size + 1 }
  else
    { b with votes := b.votes.set b.tail (some vote)
             tail := (b.tail + 1) % b.capacity
             head := (b.head + 1) % b.capacity }

def iterGo (b : CircularVoteBuffer) : Nat → Nat → List ConfirmedVote
  | _, 0 => []
  | idx, fuel + 1 =>
    match b.votes[idx]? with
    | some (some x) => x :: iterGo b ((idx + 1) % b.capacity) fuel
    | _ => []

def iterList (b : CircularVoteBuffer) : List ConfirmedVote :=
  iterGo b b.head b.size

def pushList (b : CircularVoteBuffer) (l : List ConfirmedVote) : CircularVoteBuffer :=
  l.foldl push b

/-- The two buffer implementations are field-for-field the same structure. -/
def toCB (b : CircularVoteBuffer) : CircularBuffer ConfirmedVote :=
  { data := b.votes
    head := b.head
    tail := b.tail
    size := b.size
    capacity := b.capacity }

end CircularVoteBuffer

/-! ## Audit-filter predicate (`config.rs`) -/

structure PerformanceFilterConfig where
  enabled : Bool
  min_latency_threshold : Option Nat
  max_latency_threshold : Option Nat
  min_tvc_threshold : Option Nat
  max_tvc_threshold : Option Nat
  performance_levels : List String
  deriving Repr

/-- `if let Some(m) = bound ... if v < m return false`: the value is strictly
below a set lower bound. -/
def belowBound (bound : Option Nat) (v : Nat) : Bool :=
  match bound with
  | some m => decide (v < m)
  | none => false

/-- `if let Some(m) = bound ... if v > m return false`: the value is strictly
above a set upper bound. -/
def aboveBound (bound : Option Nat) (v : Nat) : Bool :=
  match bound with
  | some m => decide (m < v)
  | none => false

/-- `PerformanceFilterConfig::should_save_vote` from `config.rs`: each set
bound is an early-`false` check; an empty tier list is no constraint,
otherwise tier names are compared lowercased. -/
def PerformanceFilterConfig.should_save_vote (c : PerformanceFilterConfig)
    (latency tvc_credits : Nat) (performance_level : TvcPerformanceLevel) : Bool :=
  if !c.enabled then false
  else if belowBound c.min_latency_threshold latency then false
  else if aboveBound c.max_latency_threshold latency then false
  else if belowBound c.min_tvc_threshold tvc_credits then false
  else if aboveBound c.max_tvc_threshold tvc_credits then false
  else if !c.performance_levels.isEmpty &&
          !(c.performance_levels.any
             (fun level => level.toLower == performance_level.as_str.toLower)) then
    false
  else true

/-- The concrete filter configuration of the C9 scenario:
`min_latency = 1`, `max_tvc = 15`, no tier restriction. -/
def c9FilterConfig : PerformanceFilterConfig :=
  { enabled := true
    min_latency_threshold := some 1
    max_latency_threshold := none
    min_tvc_threshold := none
    max_tvc_threshold := some 15
    performance_levels := [] }

/-! ## Vote tracker (`vote_tracker.rs`) -/

/-- The 32-byte vote program id constant from `vote_tracker.rs`. -/
def VOTE_PROGRAM_ID : List Nat :=
  [7, 97, 72, 29, 53, 116, 116, 187, 124, 77, 118, 36, 235, 211, 189, 179,
   216, 53, 94, 115, 209, 16, 67, 252, 13, 163, 83, 128, 0, 0, 0, 0]

structure VoteSlotInfo where
  slot : Slot
  confirmation_count : Option Nat
  deriving Repr, DecidableEq

/-- `VoteSlotInfo::is_new_vote`: `confirmation_count == Some(1)`. -/
def VoteSlotInfo.is_new_vote (v : VoteSlotInfo) : Bool :=
  v.confirmation_count == some 1

/-- `VoteSlotInfo::is_existing_vote`: `confirmation_count > 1`. -/
def VoteSlotInfo.is_existing_vote (v : VoteSlotInfo) : Bool :=
  match v.confirmation_count with
  | some count => decide (1 < count)
  | none => false

/-- The result of the external `limited_deserialize::<VoteInstruction>` on an
instruction payload, modelled by its decoded shape (the byte-level bincode
decoding is external library code).  The constructors mirror the variant
groups matched in `parse_vote_instruction_data`; `otherInstr` is any variant
outside those groups and `malformed` is a deserialization failure carrying
the error text. -/
inductive VoteInstructionData where
  | vote (slots : List Slot)
  | voteStateUpdate (lockouts : List (Slot × Nat))
  | towerSync (lockouts : List (Slot × Nat))
  | otherInstr
  | malformed (msg : String)
  deriving Repr, DecidableEq

/-- `parse_vote_instruction_data` from `vote_tracker.rs`: `Vote`-family slots
get `confirmation_count = Some(1)`; state-update and tower-sync lockouts
carry their own confirmation counts; unknown variants and deserialization
failures are typed errors. -/
def parse_vote_instruction_data (data : VoteInstructionData) :
    Except String (List VoteSlotInfo) :=
  match data with
  | .vote slots => .ok (slots.map fun slot => ⟨slot, some 1⟩)
  | .voteStateUpdate lockouts => .ok (lockouts.map fun lk => ⟨lk.1, some lk.2⟩)
  | .towerSync lockouts => .ok (lockouts.map fun lk => ⟨lk.1, some lk.2⟩)
  | .otherInstr => .error "unknown vote instruction type"
  | .malformed e => .error ("failed to deserialize vote instruction: " ++ e)

/-- `PendingVote` from `vote_tracker.rs`.  The `FxHashSet<Slot>` of voted
slots is modelled as a list used only through membership. -/
structure PendingVote where
  signature : String
  voted_slots : List Slot
  transaction_slot : Slot
  timestamp : Nat
  instruction_data : VoteInstructionData
  deriving Repr, DecidableEq

/-- Stand-in for the external `fd_bs58::encode_64` (textual encoding of a
64-byte array).  Only its being a pure function of the 64-byte key matters
to the modelled code. -/
def encode_64 (key : List Nat) : String :=
  toString key

/-- Association-list lookup, modelling `FxHashMap::get`. -/
def lookupAssoc {V : Type} : List (List Nat × V) → List Nat → Option V
  | [], _ => none
  | e :: rest, k => if e.1 == k then some e.2 else lookupAssoc rest k

/-- Association-list insert (replace or append), modelling
`FxHashMap::insert`. -/
def insertAssoc {V : Type} (m : List (List Nat × V)) (k : List Nat) (v : V) :
    List (List Nat × V) :=
  if m.any (fun e => e.1 == k) then
    m.map (fun e => if e.1 == k then (k, v) else e)
  else
    m ++ [(k, v)]

/-- `SignatureCache` from `vote_tracker.rs`: a bounded map from the 64-byte
signature to its shared textual form. -/
structure SignatureCache where
  cache : List (List Nat × String)
  max_entries : Nat
  deriving Repr, DecidableEq

def SignatureCache.new (max_entries : Nat) : SignatureCache :=
  { cache := [], max_entries := max_entries }

/-- `SignatureCache::get_or_insert`.  `key.copy_from_slice(&bytes[..64.min(len)])`
panics (modelled as `none`) unless the source has at least 64 bytes, in which
case the key is the first 64 bytes.  When the cache is full, the first
iterated entry (modelled as the list head) is evicted before inserting. -/
def SignatureCache.get_or_insert (c : SignatureCache) (signature_bytes : List Nat) :
    Option (String × SignatureCache) :=
  if signature_bytes.length < 64 then
    none
  else
    match lookupAssoc c.cache (signature_bytes.take 64) with
    | some cached => some (cached, c)
    | none =>
      some (encode_64 (signature_bytes.take 64),
        { c with cache :=
            (insertAssoc
              (if c.max_entries ≤ c.cache.length then c.cache.drop 1 else c.cache)
              (signature_bytes.take 64)
              (encode_64 (signature_bytes.take 64))) })

/-- Pending-table lookup, modelling `FxHashMap::get` keyed by signature text. -/
def lookupPending : List (String × PendingVote) → String → Option PendingVote
  | [], _ => none
  | e :: rest, k => if e.1 == k then some e.2 else lookupPending rest k

/-- Pending-table insert (replace or append), modelling `FxHashMap::insert`. -/
def insertPending (m : List (String × PendingVote)) (k : String) (v : PendingVote) :
    List (String × PendingVote) :=
  if m.any (fun e => e.1 == k) then
    m.map (fun e => if e.1 == k then (k, v) else e)
  else
    m ++ [(k, v)]

/-- Pending-table removal, modelling `FxHashMap::remove`. -/
def removePending (m : List (String × PendingVote)) (k : String) :
    List (String × PendingVote) :=
  m.filter (fun e => !(e.1 == k))

/-- `VoteTracker` from `vote_tracker.rs`.  `Instant`s are modelled as `Nat`
seconds supplied by callers (`now`). -/
structure VoteTracker where
  pending_votes : List (String × PendingVote)
  confirmed_votes : CircularBuffer ConfirmedVote
  processed_slots : CircularBuffer Slot
  signature_cache : SignatureCache
  last_cleanup_slot : Slot
  last_cleanup_time : Nat
  pending_count : Nat
  deriving DecidableEq

namespace VoteTracker

/-- `VoteTracker::new` (capacities 100, 50, 2048 as in the source). -/
def new (now : Nat) : VoteTracker :=
  { pending_votes := []
    confirmed_votes := CircularBuffer.new ConfirmedVote 100
    processed_slots := CircularBuffer.new Slot 50
    signature_cache := SignatureCache.new 2048
    last_cleanup_slot := 0
    last_cleanup_time := now
    pending_count := 0 }

/-- `VoteTracker::cleanup_old_pending`: the cutoff is derived from the LAST
element yielded by the processed-slots ring iterator
(`processed_slots.iter().last()`, i.e. the most recently pushed slot), minus
100 (saturating); entries at or below the cutoff are dropped. -/
def cleanup_old_pending (t : VoteTracker) (now : Nat) : VoteTracker :=
  let current_slot := (CircularBuffer.iterList t.processed_slots).getLast?.getD 0
  let cutoff_slot := current_slot - 100
  let pending := t.pending_votes.filter (fun e => cutoff_slot < e.2.transaction_slot)
  { t with pending_votes := pending
           pending_count := pending.length
           last_cleanup_slot := current_slot
           last_cleanup_time := now }

/-- `VoteTracker::add_pending_vote`: insert keyed by signature, bump the
count, then run the sweep if 60 seconds have elapsed since the last one. -/
def add_pending_vote (t : VoteTracker) (pending : PendingVote) (now : Nat) :
    VoteTracker :=
  let t1 := { t with
    pending_votes := insertPending t.pending_votes pending.signature pending
    pending_count := t.pending_count + 1 }
  if 60 ≤ now - t1.last_cleanup_time then
    t1.cleanup_old_pending now
  else
    t1

/-- `VoteTracker::confirm_vote`.  Returns the optional confirmation and the
updated tracker. -/
def confirm_vote (t : VoteTracker) (signature : String)
    (voted_slot finalized_slot : Slot) (now : Nat) :
    Option ConfirmedVote × VoteTracker :=
  if finalized_slot < voted_slot then
    (none, t)
  else
    match lookupPending t.pending_votes signature with
    | some pending =>
      if pending.voted_slots.contains voted_slot then
        let latency := finalized_slot - voted_slot
        let tvc_credits := calculate_tvc_credits_from_latency latency
        let confirmed : ConfirmedVote :=
          { signature := signature
            voted_slot := voted_slot
            finalized_slot := finalized_slot
            latency := latency
            tvc_credits := tvc_credits
            timestamp := now }
        (some confirmed,
         { t with
             pending_votes := removePending t.pending_votes signature
             pending_count := t.pending_count - 1
             confirmed_votes := t.confirmed_votes.push confirmed })
      else
        (none, t)
    | none =>
      let lc := calculate_tvc_credits voted_slot finalized_slot
      (some { signature := signature
              voted_slot := voted_slot
              finalized_slot := finalized_slot
              latency := lc.1
              tvc_credits := lc.2
              timestamp := now }, t)

/-- `VoteTracker::has_processed_slot`: membership scan of the ring. -/
def has_processed_slot (t : VoteTracker) (slot : Slot) : Bool :=
  (CircularBuffer.iterList t.processed_slots).any (fun s => s == slot)

/-- `VoteTracker::mark_slot_processed`. -/
def mark_slot_processed (t : VoteTracker) (slot : Slot) : VoteTracker :=
  { t with processed_slots := t.processed_slots.push slot }

/-- `VoteTracker::get_or_cache_signature`; `none` models the panic on a
short byte slice. -/
def get_or_cache_signature (t : VoteTracker) (signature_bytes : List Nat) :
    Option (String × VoteTracker) :=
  match t.signature_cache.get_or_insert signature_bytes with
  | none => none
  | some (s, c) => some (s, { t with signature_cache := c })

end VoteTracker

/-- Decidable equality for `Except`, used to evaluate processing results on
concrete inputs. -/
instance {ε α : Type} [DecidableEq ε] [DecidableEq α] : DecidableEq (Except ε α) :=
  fun x y =>
    match x, y with
    | .error a, .error b =>
      if h : a = b then isTrue (by rw [h]) else
        isFalse (by intro hc; cases hc; exact h rfl)
    | .error _, .ok _ => isFalse (by intro hc; cases hc)
    | .ok _, .error _ => isFalse (by intro hc; cases hc)
    | .ok a, .ok b =>
      if h : a = b then isTrue (by rw [h]) else
        isFalse (by intro hc; cases hc; exact h rfl)

/-! ## Stream update shapes and the processing entry points -/

structure CompiledInstruction where
  program_id_index : Nat
  data : VoteInstructionData
  deriving Repr, DecidableEq

structure TxMessage where
  account_keys : List (List Nat)
  instructions : List CompiledInstruction
  deriving Repr, DecidableEq

structure TransactionData where
  message : Option TxMessage
  deriving Repr, DecidableEq

structure SubscribeUpdateTransactionInfo where
  signature : List Nat
  is_vote : Bool
  transaction : Option TransactionData
  deriving Repr, DecidableEq

structure SubscribeUpdateTransaction where
  slot : Slot
  transaction : Option SubscribeUpdateTransactionInfo
  deriving Repr, DecidableEq

structure BlockTransaction where
  signatures : List (List Nat)
  message : Option TxMessage
  deriving Repr, DecidableEq

structure BlockTransactionInfo where
  transaction : Option BlockTransaction
  deriving Repr, DecidableEq

structure SubscribeUpdateBlock where
  slot : Slot
  transactions : List BlockTransactionInfo
  deriving Repr, DecidableEq

/-- The instruction loop of `process_vote_transaction`: skip instructions
whose program id is not the vote program; on a vote-program instruction,
`parse_vote_instruction_data(..)?` — a parse error aborts the WHOLE call;
otherwise collect the new-vote slots and, if non-empty, add a pending vote.
An out-of-range `program_id_index` skips the instruction (`get` is `None`). -/
def processTxInstructions (account_keys : List (List Nat)) :
    List CompiledInstruction → String → Slot → VoteTracker → Nat →
    Option (Except String VoteTracker)
  | [], _, _, t, _ => some (.ok t)
  | instruction :: rest, signature, transaction_slot, t, now =>
    match account_keys[instruction.program_id_index]? with
    | some program_account =>
      if program_account == VOTE_PROGRAM_ID then
        match parse_vote_instruction_data instruction.data with
        | .error e => some (.error e)
        | .ok vote_slots =>
          let new_voted_slots :=
            (vote_slots.filter (fun v => v.is_new_vote)).map (fun v => v.slot)
          let t1 :=
            if !new_voted_slots.isEmpty then
              t.add_pending_vote
                { signature := signature
                  voted_slots := new_voted_slots
                  transaction_slot := transaction_slot
                  timestamp := now
                  instruction_data := instruction.data } now
            else t
          processTxInstructions account_keys rest signature transaction_slot t1 now
      else
        processTxInstructions account_keys rest signature transaction_slot t now
    | none =>
      processTxInstructions account_keys rest signature transaction_slot t now

/-- `process_vote_transaction` from `vote_tracker.rs`.  The outer `Option`
models the signature-copy panic; the `Except` carries the typed errors. -/
def process_vote_transaction (tx_update : SubscribeUpdateTransaction)
    (vote_account : String) (vote_tracker : VoteTracker) (now : Nat) :
    Option (Except String VoteTracker) :=
  let transaction_slot := tx_update.slot
  match tx_update.transaction with
  | none => some (.error "empty transaction")
  | some transaction =>
    if !transaction.is_vote then
      some (.ok vote_tracker)
    else
      match vote_tracker.get_or_cache_signature transaction.signature with
      | none => none
      | some (signature_base58, vt) =>
        match transaction.transaction with
        | none => some (.ok vt)
        | some tx_data =>
          match tx_data.message with
          | none => some (.ok vt)
          | some message =>
            processTxInstructions message.account_keys message.instructions
              signature_base58 transaction_slot vt now

/-- The slot loop of `process_transaction_in_block`: offer each new-vote slot
to `confirm_vote` in order, RETURNING at the first confirmation. -/
def confirmSlots (signature : String) (finalized_slot : Slot) (now : Nat) :
    List VoteSlotInfo → VoteTracker → Option ConfirmedVote × VoteTracker
  | [], t => (none, t)
  | vote_info :: rest, t =>
    if vote_info.is_new_vote then
      match t.confirm_vote signature vote_info.slot finalized_slot now with
      | (some confirmed, t1) => (some confirmed, t1)
      | (none, t1) => confirmSlots signature finalized_slot now rest t1
    else
      confirmSlots signature finalized_slot now rest t

/-- The instruction loop of `process_transaction_in_block`: a parse error
(`?`) aborts the call; a confirmation returns immediately. -/
def processBlockInstructions (account_keys : List (List Nat)) :
    List CompiledInstruction → String → Slot → VoteTracker → Nat →
    Except String (Option ConfirmedVote × VoteTracker)
  | [], _, _, t, _ => .ok (none, t)
  | instruction :: rest, signature, finalized_slot, t, now =>
    match account_keys[instruction.program_id_index]? with
    | some program_account =>
      if program_account == VOTE_PROGRAM_ID then
        match parse_vote_instruction_data instruction.data with
        | .error e => .error e
        | .ok vote_slots =>
          match confirmSlots signature finalized_slot now vote_slots t with
          | (some confirmed, t1) => .ok (some confirmed, t1)
          | (none, t1) =>
            processBlockInstructions account_keys rest signature finalized_slot t1 now
      else
        processBlockInstructions account_keys rest signature finalized_slot t now
    | none =>
      processBlockInstructions account_keys rest signature finalized_slot t now

/-- `process_transaction_in_block` from `vote_tracker.rs`. -/
def process_transaction_in_block (transaction : BlockTransaction)
    (signature : String) (finalized_slot : Slot) (vote_account : String)
    (t : VoteTracker) (now : Nat) :
    Except String (Option ConfirmedVote × VoteTracker) :=
  match transaction.message with
  | none => .ok (none, t)
  | some message =>
    processBlockInstructions message.account_keys message.instructions
      signature finalized_slot t now

/-- The transaction loop of `process_finalized_block`: skip transactions with
no payload or no signature; a panic (`none`) or error (`?`) aborts the call;
confirmations accumulate in order. -/
def processBlockTxs (vote_account : String) (finalized_slot : Slot) (now : Nat) :
    List BlockTransactionInfo → List ConfirmedVote → VoteTracker →
    Option (Except String (List ConfirmedVote × VoteTracker))
  | [], acc, t => some (.ok (acc, t))
  | tx_info :: rest, acc, t =>
    match tx_info.transaction with
    | none => processBlockTxs vote_account finalized_slot now rest acc t
    | some transaction =>
      match transaction.signatures.head? with
      | none => processBlockTxs vote_account finalized_slot now rest acc t
      | some signature_bytes =>
        match t.get_or_cache_signature signature_bytes with
        | none => none
        | some (signature_base58, t1) =>
          match process_transaction_in_block transaction signature_base58
              finalized_slot vote_account t1 now with
          | .error e => some (.error e)
          | .ok (some confirmed, t2) =>
            processBlockTxs vote_account finalized_slot now rest
              (acc ++ [confirmed]) t2
          | .ok (none, t2) =>
            processBlockTxs vote_account finalized_slot now rest acc t2

/-- `process_finalized_block` from `vote_tracker.rs`: an already-processed
slot returns an empty list untouched; otherwise the slot is marked and every
block transaction is examined. -/
def process_finalized_block (block_update : SubscribeUpdateBlock)
    (vote_account : String) (vote_tracker : VoteTracker) (now : Nat) :
    Option (Except String (List ConfirmedVote × VoteTracker)) :=
  let finalized_slot := block_update.slot
  if vote_tracker.has_processed_slot finalized_slot then
    some (.ok ([], vote_tracker))
  else
    processBlockTxs vote_account finalized_slot now block_update.transactions []
      (vote_tracker.mark_slot_processed finalized_slot)

/-! ## Performance aggregator counters (`performance.rs`) -/

/-- `PerformanceStats` (the counter and window state mutated by
`add_confirmed_vote`; atomics are plain naturals in this single-writer
model). -/
structure PerformanceStats where
  total_transactions : Nat
  total_tvc_earned : Nat
  total_tvc_possible : Nat
  optimal_votes : Nat
  good_votes : Nat
  poor_votes : Nat
  low_latency_votes : Nat
  recent_confirmed_votes : List ConfirmedVote
  session_poor_votes : List ConfirmedVote
  avg_latency_window : List Nat
  avg_latency_window_sum : Nat
  current_finalized_slot : Nat
  last_confirmed_vote : Option ConfirmedVote
  total_latency_sum : Nat
  deriving Repr, DecidableEq

/-- `PerformanceStats::add_confirmed_vote` from `performance.rs`. -/
def PerformanceStats.add_confirmed_vote (s : PerformanceStats)
    (confirmed : ConfirmedVote) : PerformanceStats :=
  let optimal := if confirmed.tvc_credits = 16 then s.optimal_votes + 1 else s.optimal_votes
  let good := if 12 ≤ confirmed.tvc_credits ∧ confirmed.tvc_credits ≤ 15 then
      s.good_votes + 1 else s.good_votes
  let poor := if confirmed.tvc_credits = 16 ∨
      (12 ≤ confirmed.tvc_credits ∧ confirmed.tvc_credits ≤ 15) then
      s.poor_votes else s.poor_votes + 1
  let lowlat := if confirmed.latency ≤ 2 then s.low_latency_votes + 1 else s.low_latency_votes
  let recent0 := s.recent_confirmed_votes ++ [confirmed]
  let recent := if 20 < recent0.length then recent0.drop 1 else recent0
  let awl0 := s.avg_latency_window ++ [confirmed.latency]
  let aws0 := s.avg_latency_window_sum + confirmed.latency
  let awl := if 20 < awl0.length then awl0.drop 1 else awl0
  let aws := if 20 < awl0.length then aws0 - awl0.headD 0 else aws0
  let sess0 := if confirmed.tvc_credits < 16 then
      s.session_poor_votes ++ [confirmed] else s.session_poor_votes
  let sess := if 50 < sess0.length then sess0.drop 1 else sess0
  { s with
      total_transactions := s.total_transactions + 1
      total_tvc_earned := s.total_tvc_earned + confirmed.tvc_credits
      total_tvc_possible := s.total_tvc_possible + VOTE_CREDITS_MAXIMUM_PER_SLOT
      current_finalized_slot := confirmed.finalized_slot
      total_latency_sum := s.total_latency_sum + confirmed.latency
      optimal_votes := optimal
      good_votes := good
      poor_votes := poor
      low_latency_votes := lowlat
      recent_confirmed_votes := recent
      avg_latency_window := awl
      avg_latency_window_sum := aws
      session_poor_votes := sess
      last_confirmed_vote := some confirmed }

/-- The caller loop in `main.rs` feeding a block's confirmations into the
aggregator, one `add_confirmed_vote` per returned vote. -/
def recordConfirmedVotes (s : PerformanceStats) (votes : List ConfirmedVote) :
    PerformanceStats :=
  votes.foldl PerformanceStats.add_confirmed_vote s

/-! ## Spec-side definitions and concrete scenario inputs -/

/-- Spec-side definition for C6: the LARGEST processed slot currently
remembered (the spec's `max_seen_processed_slot` restricted to ring
retention). -/
def maxProcessedSlot (t : VoteTracker) : Nat :=
  (CircularBuffer.iterList t.processed_slots).foldl max 0

/-- Spec-side variant of the block slot loop for C7, following the spec
sentence: EVERY new-vote slot is offered to `confirm_vote`, and all resulting
confirmations are collected. -/
def confirmSlotsSpec (signature : String) (finalized_slot : Slot) (now : Nat) :
    List VoteSlotInfo → VoteTracker → List ConfirmedVote × VoteTracker
  | [], t => ([], t)
  | vote_info :: rest, t =>
    if vote_info.is_new_vote then
      match t.confirm_vote signature vote_info.slot finalized_slot now with
      | (some confirmed, t1) =>
        let r := confirmSlotsSpec signature finalized_slot now rest t1
        (confirmed :: r.1, r.2)
      | (none, t1) => confirmSlotsSpec signature finalized_slot now rest t1
    else
      confirmSlotsSpec signature finalized_slot now rest t

/-- A well-formed ring: positive capacity and some push history explaining
the fields. -/
def RingWF (b : CircularBuffer Slot) : Prop :=
  0 < b.capacity ∧ ∃ l, CircularBuffer.WF b l

/-- A 64-byte signature for concrete scenarios. -/
def sigBytes (seed : Nat) : List Nat :=
  List.replicate 64 seed

/-- Tracker for the C6 counterexample: processed ring was pushed 200 then
150 (so the max seen is 200 but the most recent is 150), one pending entry
at transaction slot 80. -/
def c6Pending : PendingVote :=
  { signature := "sig1"
    voted_slots := [80]
    transaction_slot := 80
    timestamp := 0
    instruction_data := .vote [80] }

def c6Tracker : VoteTracker :=
  { pending_votes := [("sig1", c6Pending)]
    confirmed_votes := CircularBuffer.new ConfirmedVote 100
    processed_slots := CircularBuffer.pushList (CircularBuffer.new Slot 50) [200, 150]
    signature_cache := SignatureCache.new 2048
    last_cleanup_slot := 0
    last_cleanup_time := 0
    pending_count := 1 }

/-- Block for the C3 counterexample: first transaction carries a malformed
vote instruction, second carries a well-formed one that would confirm. -/
def c3Block : SubscribeUpdateBlock :=
  { slot := 105
    transactions :=
      [{ transaction := some
          { signatures := [sigBytes 1]
            message := some
              { account_keys := [VOTE_PROGRAM_ID]
                instructions := [{ program_id_index := 0, data := .malformed "bad" }] } } },
       { transaction := some
          { signatures := [sigBytes 2]
            message := some
              { account_keys := [VOTE_PROGRAM_ID]
                instructions := [{ program_id_index := 0, data := .vote [100] }] } } }]}

/-- The same block with only the well-formed second transaction. -/
def c3GoodBlock : SubscribeUpdateBlock :=
  { slot := 105
    transactions :=
      [{ transaction := some
          { signatures := [sigBytes 2]
            message := some
              { account_keys := [VOTE_PROGRAM_ID]
                instructions := [{ program_id_index := 0, data := .vote [100] }] } } }]}

/-- Count of confirmations in a block-processing result. -/
def confirmedCount (r : Option (Except String (List ConfirmedVote × VoteTracker))) :
    Option Nat :=
  match r with
  | some (.ok (vs, _)) => some vs.length
  | _ => none

/-- Voted slots of the confirmations in a block-processing result. -/
def votedSlotsOf (r : Option (Except String (List ConfirmedVote × VoteTracker))) :
    List Slot :=
  match r with
  | some (.ok (vs, _)) => vs.map (fun cv => cv.voted_slot)
  | _ => []

/-- Block for the C7 counterexample: one transaction whose vote instruction
carries TWO new-vote slots, both of which `confirm_vote` would accept (the
tracker has no pending entry, so the direct path accepts any slot ≤ 105). -/
def c7Block : SubscribeUpdateBlock :=
  { slot := 105
    transactions :=
      [{ transaction := some
          { signatures := [sigBytes 3]
            message := some
              { account_keys := [VOTE_PROGRAM_ID]
                instructions := [{ program_id_index := 0, data := .vote [100, 101] }] } } }]}

/-- Pending entry of the C2 scenario: `voted_slots = {100, 101}`. -/
def c2p : PendingVote :=
  { signature := "s"
    voted_slots := [100, 101]
    transaction_slot := 100
    timestamp := 0
    instruction_data := .vote [100, 101] }

/-- Tracker of the C2 scenario. -/
def c2Tracker : VoteTracker :=
  { VoteTracker.new 0 with
      pending_votes := [("s", c2p)]
      pending_count := 1 }

/-- A fresh aggregator state (all counters zero), for witnesses. -/
def emptyStats : PerformanceStats :=
  { total_transactions := 0
    total_tvc_earned := 0
    total_tvc_possible := 0
    optimal_votes := 0
    good_votes := 0
    poor_votes := 0
    low_latency_votes := 0
    recent_confirmed_votes := []
    session_poor_votes := []
    avg_latency_window := []
    avg_latency_window_sum := 0
    current_finalized_slot := 0
    last_confirmed_vote := none
    total_latency_sum := 0 }

/-- A tracker that has already processed slot 105, for witnesses. -/
def markedTracker : VoteTracker :=
  (VoteTracker.new 0).mark_slot_processed 105

/-! ## Theorems for claims C1 and C9 -/

/-- Closed form of the credit function, used in several proofs. -/
lemma credits_from_latency_closed (l : Nat) :
    calculate_tvc_credits_from_latency l =
      if l ≤ 2 then 16 else if l ≤ 17 then 18 - l else 1 := by
  unfold calculate_tvc_credits_from_latency checkedSub
      VOTE_CREDITS_GRACE_SLOTS VOTE_CREDITS_MAXIMUM_PER_SLOT
  by_cases h2 : l ≤ 2
  · simp [h2]
  · by_cases h16 : l - 2 ≤ 16
    · by_cases h0 : 0 < 16 - (l - 2)
      · have h17 : l ≤ 17 := by omega
        simp [h2, h16, h0, h17]
        omega
      · have h17 : ¬ l ≤ 17 := by omega
        simp [h2, h16, h0, h17]
    · have h17 : ¬ l ≤ 17 := by omega
      simp [h2, h16, h17]

/-- The credit result is always in `[1, 16]`. -/
lemma credits_from_latency_bounds (l : Nat) :
    1 ≤ calculate_tvc_credits_from_latency l ∧
      calculate_tvc_credits_from_latency l ≤ 16 := by
  rw [credits_from_latency_closed]
  by_cases h2 : l ≤ 2 <;> by_cases h17 : l ≤ 17 <;> simp [h2, h17] <;> omega

/-- **C1.** `credits_from_latency(l)` is 16 for `l ≤ 2` and otherwise
`max(16 - (l - 2), 1)` in exact integer arithmetic; the listed sample points
hold and the result always lies in `[1, 16]`, for arbitrarily large `l`. -/
theorem c1_credits_from_latency :
    (∀ l : Nat,
      (l ≤ 2 → calculate_tvc_credits_from_latency l = 16) ∧
      (2 < l →
        (calculate_tvc_credits_from_latency l : Int) = max (16 - ((l : Int) - 2)) 1) ∧
      1 ≤ calculate_tvc_credits_from_latency l ∧
      calculate_tvc_credits_from_latency l ≤ 16) ∧
    calculate_tvc_credits_from_latency 0 = 16 ∧
    calculate_tvc_credits_from_latency 1 = 16 ∧
    calculate_tvc_credits_from_latency 2 = 16 ∧
    calculate_tvc_credits_from_latency 3 = 15 ∧
    calculate_tvc_credits_from_latency 5 = 13 ∧
    calculate_tvc_credits_from_latency 17 = 1 ∧
    calculate_tvc_credits_from_latency 1000 = 1 := by
  have hsample : ∀ l : Nat,
      calculate_tvc_credits_from_latency l =
        if l ≤ 2 then 16 else if l ≤ 17 then 18 - l else 1 :=
    credits_from_latency_closed
  refine ⟨fun l => ?_, by rw [hsample]; rfl, by rw [hsample]; rfl,
    by rw [hsample]; rfl, by rw [hsample]; rfl, by rw [hsample]; rfl,
    by rw [hsample]; rfl, by rw [hsample]; rfl⟩
  obtain ⟨hlo, hhi⟩ := credits_from_latency_bounds l
  refine ⟨fun h2 => ?_, fun h2 => ?_, hlo, hhi⟩
  · rw [credits_from_latency_closed, if_pos h2]
  · rw [credits_from_latency_closed, if_neg (by omega)]
    by_cases h17 : l ≤ 17
    · rw [if_pos h17, max_eq_left (by omega)]
      omega
    · rw [if_neg h17, max_eq_right (by omega)]
      rfl

/-- Witness for C1: instantiation at latency 5, discharging the `2 < l`
hypothesis. -/
theorem c1_credits_from_latency_witness :
    (calculate_tvc_credits_from_latency 5 : Int) = max (16 - ((5 : Int) - 2)) 1 :=
  ((c1_credits_from_latency.1 5).2.1 (by decide))

lemma ite_bool_false_left (b x : Bool) :
    (if b then false else x) = (!b && x) := by
  cases b <;> simp

/-- `should_save_vote` as one Boolean conjunction of its checks. -/
lemma should_save_vote_eq_and (c : PerformanceFilterConfig)
    (latency tvc_credits : Nat) (lvl : TvcPerformanceLevel) :
    c.should_save_vote latency tvc_credits lvl =
      (c.enabled &&
       (!belowBound c.min_latency_threshold latency &&
        (!aboveBound c.max_latency_threshold latency &&
         (!belowBound c.min_tvc_threshold tvc_credits &&
          (!aboveBound c.max_tvc_threshold tvc_credits &&
           !(!c.performance_levels.isEmpty &&
             !(c.performance_levels.any
                (fun level => level.toLower == lvl.as_str.toLower)))))))) := by
  unfold PerformanceFilterConfig.should_save_vote
  rw [ite_bool_false_left, ite_bool_false_left, ite_bool_false_left,
    ite_bool_false_left, ite_bool_false_left, ite_bool_false_left]
  cases c.enabled <;> simp

lemma belowBound_eq_false (o : Option Nat) (v : Nat) :
    belowBound o v = false ↔ ∀ m ∈ o, m ≤ v := by
  cases o <;> simp [belowBound]

lemma aboveBound_eq_false (o : Option Nat) (v : Nat) :
    aboveBound o v = false ↔ ∀ m ∈ o, v ≤ m := by
  cases o <;> simp [aboveBound]

/-- **C9.** `should_save_vote` treats unset bounds as no constraint and ANDs
all set bounds with case-insensitive tier membership; with `min_latency = 1`,
`max_tvc = 15` and no tier restriction, latency 0 is excluded, latency 3 with
13 credits is included, and 16 credits is excluded for every latency. -/
theorem c9_should_save_vote :
    (∀ (c : PerformanceFilterConfig) (latency tvc_credits : Nat)
        (lvl : TvcPerformanceLevel),
      c.enabled = true →
      (c.should_save_vote latency tvc_credits lvl = true ↔
        ((∀ m ∈ c.min_latency_threshold, m ≤ latency) ∧
         (∀ m ∈ c.max_latency_threshold, latency ≤ m) ∧
         (∀ m ∈ c.min_tvc_threshold, m ≤ tvc_credits) ∧
         (∀ m ∈ c.max_tvc_threshold, tvc_credits ≤ m) ∧
         (c.performance_levels ≠ [] →
           ∃ level ∈ c.performance_levels,
             level.toLower = lvl.as_str.toLower)))) ∧
    (∀ lvl, c9FilterConfig.should_save_vote 0 16 lvl = false) ∧
    (∀ lvl, c9FilterConfig.should_save_vote 0 1 lvl = false) ∧
    (∀ lvl, c9FilterConfig.should_save_vote 3 13 lvl = true) ∧
    (∀ latency lvl, c9FilterConfig.should_save_vote latency 16 lvl = false) := by
  refine ⟨?_, ?_, ?_, ?_, ?_⟩
  · intro c latency tvc_credits lvl hen
    rw [should_save_vote_eq_and, hen]
    simp only [Bool.true_and, Bool.and_eq_true, Bool.not_eq_true',
      belowBound_eq_false, aboveBound_eq_false, Bool.not_and,
      Bool.or_eq_true, Bool.not_eq_true, Bool.not_not,
      List.isEmpty_eq_true, List.any_eq_true, beq_iff_eq]
    constructor
    · rintro ⟨h1, h2, h3, h4, h5⟩
      exact ⟨h1, h2, h3, h4, fun hne => h5.resolve_left hne⟩
    · rintro ⟨h1, h2, h3, h4, h5⟩
      refine ⟨h1, h2, h3, h4, ?_⟩
      by_cases hne : c.performance_levels = []
      · exact Or.inl hne
      · exact Or.inr (h5 hne)
  · intro lvl; rfl
  · intro lvl; rfl
  · intro lvl; rfl
  · intro latency lvl
    rw [should_save_vote_eq_and]
    rcases Nat.lt_or_ge latency 1 with h | h
    · simp [c9FilterConfig, belowBound, h]
    · simp [c9FilterConfig, aboveBound, belowBound, Nat.not_lt.mpr h]

/-- Witness for C9: the universal part applied to the concrete C9
configuration at latency 3, credits 13, discharging `enabled = true`. -/
theorem c9_should_save_vote_witness :
    c9FilterConfig.should_save_vote 3 13 TvcPerformanceLevel.Good = true ↔
      ((∀ m ∈ c9FilterConfig.min_latency_threshold, m ≤ 3) ∧
       (∀ m ∈ c9FilterConfig.max_latency_threshold, 3 ≤ m) ∧
       (∀ m ∈ c9FilterConfig.min_tvc_threshold, m ≤ 13) ∧
       (∀ m ∈ c9FilterConfig.max_tvc_threshold, 13 ≤ m) ∧
       (c9FilterConfig.performance_levels ≠ [] →
         ∃ level ∈ c9FilterConfig.performance_levels,
           level.toLower = TvcPerformanceLevel.Good.as_str.toLower)) :=
  c9_should_save_vote.1 c9FilterConfig 3 13 TvcPerformanceLevel.Good rfl

/-! ## Ring-buffer representation theorems (claim C8) -/

lemma add_mod_ne_of_lt (c n d : Nat) (hc : 0 < c) (hd0 : 0 < d) (hdc : d < c) :
    (n + d) % c ≠ n % c := by
  intro h
  have he : n % c < c := Nat.mod_lt _ hc
  rw [Nat.add_mod, Nat.mod_eq_of_lt hdc] at h
  rcases Nat.lt_or_ge (n % c + d) c with hlt | hge
  · rw [Nat.mod_eq_of_lt hlt] at h
    omega
  · have h2 : (n % c + d) % c = n % c + d - c := by
      rw [Nat.mod_eq_sub_mod hge, Nat.mod_eq_of_lt (by omega)]
    omega

namespace CircularBuffer

lemma capacity_push (b : CircularBuffer T) (x : T) :
    (b.push x).capacity = b.capacity := by
  unfold push
  by_cases h : b.size < b.capacity <;> simp [h]

lemma WF_new (T : Type) (c : Nat) : WF (new T c) [] := by
  refine ⟨by simp [new], by simp [new], by simp [new], by simp [new], ?_⟩
  intro i hi
  simp [new] at hi

lemma WF_push (b : CircularBuffer T) (l : List T) (x : T)
    (hc : 0 < b.capacity) (h : WF b l) : WF (b.push x) (l ++ [x]) := by
  obtain ⟨hlen, hsize, htail, hhead, hdata⟩ := h
  have hscap : b.size ≤ b.capacity := by omega
  have hsn : b.size ≤ l.length := by omega
  unfold push
  by_cases hfull : b.size < b.capacity
  · -- not yet full: `size = l.length < capacity`, head stays put
    rw [if_pos hfull]
    have hsz : b.size = l.length := by omega
    have hnlt : l.length < b.capacity := by omega
    have hhead0 : b.head = 0 := by
      rw [hhead, hsz, Nat.sub_self, Nat.zero_mod]
    have htl : b.tail = l.length := by
      rw [htail, Nat.mod_eq_of_lt hnlt]
    refine ⟨?_, ?_, ?_, ?_, ?_⟩
    · show (b.data.set b.tail (some x)).length = b.capacity
      rw [List.length_set, hlen]
    · show b.size + 1 = min (l ++ [x]).length b.capacity
      rw [List.length_append, List.length_singleton]
      omega
    · show (b.tail + 1) % b.capacity = (l ++ [x]).length % b.capacity
      rw [List.length_append, List.length_singleton, htail, Nat.mod_add_mod]
    · show b.head = ((l ++ [x]).length - (b.size + 1)) % b.capacity
      rw [List.length_append, List.length_singleton]
      have harith : l.length + 1 - (b.size + 1) = l.length - b.size := by omega
      rw [harith, ← hhead]
    · intro i hi
      show (b.data.set b.tail (some x))[(b.head + i) % b.capacity]? =
        some (l ++ [x])[(l ++ [x]).length - (b.size + 1) + i]?
      replace hi : i < b.size + 1 := hi
      have hic : i < b.capacity := by omega
      have hidx : (l ++ [x]).length - (b.size + 1) + i = i := by
        rw [List.length_append, List.length_singleton]
        omega
      rw [hidx, hhead0, Nat.zero_add, Nat.mod_eq_of_lt hic]
      rcases Nat.lt_or_ge i l.length with hilt | hige
      · -- untouched cell, still holds the old element
        rw [List.getElem?_set_ne (by omega : b.tail ≠ i),
          List.getElem?_append_left hilt]
        have hd := hdata i (by omega)
        rw [hhead0, Nat.zero_add, Nat.mod_eq_of_lt hic] at hd
        have harith2 : l.length - b.size + i = i := by omega
        rw [harith2] at hd
        exact hd
      · -- the freshly written cell
        have hieq : i = l.length := by omega
        subst hieq
        rw [← htl, List.getElem?_set_self (by omega : b.tail < b.data.length),
          htl, List.getElem?_concat_length]
  · -- full: `size = capacity ≤ l.length`, head advances
    rw [if_neg hfull]
    have hsz : b.size = b.capacity := by omega
    have hcn : b.capacity ≤ l.length := by omega
    have hheadmod : b.head = l.length % b.capacity := by
      rw [hhead, hsz, Nat.mod_eq_sub_mod hcn]
    have htlt : b.tail < b.data.length := by
      rw [hlen, htail]
      exact Nat.mod_lt _ hc
    refine ⟨?_, ?_, ?_, ?_, ?_⟩
    · show (b.data.set b.tail (some x)).length = b.capacity
      rw [List.length_set, hlen]
    · show b.size = min (l ++ [x]).length b.capacity
      rw [List.length_append, List.length_singleton]
      omega
    · show (b.tail + 1) % b.capacity = (l ++ [x]).length % b.capacity
      rw [List.length_append, List.length_singleton, htail, Nat.mod_add_mod]
    · show (b.head + 1) % b.capacity = ((l ++ [x]).length - b.size) % b.capacity
      rw [List.length_append, List.length_singleton, hheadmod, Nat.mod_add_mod,
        hsz, Nat.mod_eq_sub_mod (by omega : b.capacity ≤ l.length + 1)]
    · intro i hi
      show (b.data.set b.tail (some x))[((b.head + 1) % b.capacity + i) % b.capacity]? =
        some (l ++ [x])[(l ++ [x]).length - b.size + i]?
      replace hi : i < b.size := hi
      have hidx : ((b.head + 1) % b.capacity + i) % b.capacity =
          (l.length + 1 + i) % b.capacity := by
        rw [hheadmod, Nat.mod_add_mod, Nat.add_assoc, Nat.mod_add_mod,
          ← Nat.add_assoc]
      rw [hidx, List.length_append, List.length_singleton]
      rcases Nat.lt_or_ge i (b.size - 1) with hilt | hige
      · -- old element, shifted by one in the window
        have hne : (l.length + 1 + i) % b.capacity ≠ b.tail := by
          rw [htail]
          have harith : l.length + 1 + i = l.length + (1 + i) := by omega
          rw [harith]
          exact add_mod_ne_of_lt _ _ _ hc (by omega) (by omega)
        rw [List.getElem?_set_ne (fun hh => hne hh.symm)]
        have hd := hdata (i + 1) (by omega)
        have hidx2 : (b.head + (i + 1)) % b.capacity =
            (l.length + 1 + i) % b.capacity := by
          rw [hheadmod, Nat.mod_add_mod]
          congr 1
          omega
        rw [hidx2] at hd
        rw [hd]
        have harith3 : l.length + 1 - b.size + i = l.length - b.size + (i + 1) := by
          omega
        rw [harith3, List.getElem?_append_left
          (by omega : l.length - b.size + (i + 1) < l.length)]
      · -- the freshly written cell is the newest element
        have hmod : (l.length + 1 + i) % b.capacity = b.tail := by
          rw [htail]
          have harith : l.length + 1 + i = l.length + b.capacity := by omega
          rw [harith, Nat.add_mod_right]
        rw [hmod, List.getElem?_set_self htlt]
        have harith2 : l.length + 1 - b.size + i = l.length := by omega
        rw [harith2, List.getElem?_concat_length]

lemma iterGo_spec (b : CircularBuffer T) (l : List T)
    (hc : 0 < b.capacity) (h : WF b l) :
    ∀ fuel j, j + fuel = b.size →
      iterGo b ((b.head + j) % b.capacity) fuel =
        (l.drop (l.length - b.size + j)).take fuel := by
  obtain ⟨hlen, hsize, htail, hhead, hdata⟩ := h
  intro fuel
  induction fuel with
  | zero => intro j _; simp [iterGo]
  | succ fuel ih =>
    intro j hj
    have hjlt : j < b.size := by omega
    have hd := hdata j hjlt
    have hlt : l.length - b.size + j < l.length := by omega
    obtain ⟨x, hx⟩ : ∃ x, l[l.length - b.size + j]? = some x :=
      ⟨_, List.getElem?_eq_getElem hlt⟩
    rw [hx] at hd
    rw [iterGo, hd]
    show x :: iterGo b (((b.head + j) % b.capacity + 1) % b.capacity) fuel =
      (l.drop (l.length - b.size + j)).take (fuel + 1)
    have hstep : ((b.head + j) % b.capacity + 1) % b.capacity =
        (b.head + (j + 1)) % b.capacity := by
      rw [Nat.mod_add_mod]
      congr 1
    rw [hstep, ih (j + 1) (by omega)]
    rw [List.drop_eq_getElem_cons hlt, List.take_succ_cons]
    have harith : l.length - b.size + (j + 1) = l.length - b.size + j + 1 := by
      omega
    rw [harith]
    congr 1
    have hg := List.getElem?_eq_getElem hlt
    rw [hx] at hg
    exact Option.some.inj hg

lemma iterList_WF (b : CircularBuffer T) (l : List T)
    (hc : 0 < b.capacity) (h : WF b l) :
    iterList b = l.drop (l.length - b.size) := by
  have hhead : b.head = (l.length - b.size) % b.capacity := h.2.2.2.1
  have hhlt : b.head < b.capacity := by
    rw [hhead]
    exact Nat.mod_lt _ hc
  have := iterGo_spec b l hc h b.size 0 (by omega)
  rw [Nat.add_zero, Nat.mod_eq_of_lt hhlt] at this
  rw [iterList, this, Nat.add_zero]
  apply List.take_of_length_le
  rw [List.length_drop]
  have hmin : b.size = min l.length b.capacity := h.2.1
  omega

lemma capacity_pushList (b : CircularBuffer T) (l : List T) :
    (pushList b l).capacity = b.capacity := by
  induction l generalizing b with
  | nil => rfl
  | cons x xs ih =>
    show (pushList (b.push x) xs).capacity = b.capacity
    rw [ih, capacity_push]

lemma WF_pushList (b : CircularBuffer T) (l m : List T)
    (hc : 0 < b.capacity) (h : WF b l) : WF (pushList b m) (l ++ m) := by
  induction m generalizing b l with
  | nil => simpa using h
  | cons x xs ih =>
    have hpc : 0 < (b.push x).capacity := by rw [capacity_push]; exact hc
    have := ih (b.push x) (l ++ [x]) hpc (WF_push b l x hc h)
    simpa using this

end CircularBuffer

namespace CircularVoteBuffer

lemma toCB_push (b : CircularVoteBuffer) (x : ConfirmedVote) :
    (b.push x).toCB = b.toCB.push x := by
  unfold push CircularBuffer.push toCB
  by_cases h : b.size < b.capacity <;> simp [h]

lemma toCB_pushList (b : CircularVoteBuffer) (l : List ConfirmedVote) :
    (b.pushList l).toCB = b.toCB.pushList l := by
  induction l generalizing b with
  | nil => rfl
  | cons x xs ih =>
    show ((b.push x).pushList xs).toCB = _
    rw [ih, toCB_push]
    rfl

lemma toCB_iterGo (b : CircularVoteBuffer) (idx fuel : Nat) :
    iterGo b idx fuel = CircularBuffer.iterGo b.toCB idx fuel := by
  induction fuel generalizing idx with
  | zero => rfl
  | succ fuel ih =>
    rw [iterGo, CircularBuffer.iterGo]
    have hv : b.toCB.data = b.votes := rfl
    have hcap : b.toCB.capacity = b.capacity := rfl
    rw [hv, hcap]
    cases h : b.votes[idx]? with
    | none => rfl
    | some o =>
      cases o with
      | none => rfl
      | some x =>
        show x :: iterGo b ((idx + 1) % b.capacity) fuel =
          x :: CircularBuffer.iterGo b.toCB ((idx + 1) % b.capacity) fuel
        rw [ih]

lemma toCB_iterList (b : CircularVoteBuffer) :
    iterList b = CircularBuffer.iterList b.toCB := by
  rw [iterList, CircularBuffer.iterList, toCB_iterGo]
  rfl

lemma toCB_new (c : Nat) : (new c).toCB = CircularBuffer.new ConfirmedVote c := rfl

end CircularVoteBuffer

/-- **C8.** Pushing `c + k` items (`c ≥ 1`, `k > 0`) into a fresh ring of
capacity `c` leaves exactly `c` items, iterated in FIFO order, equal to the
last `c` items pushed; and the size never exceeds `c` for any push sequence.
Stated for the generic `CircularBuffer` of `vote_tracker.rs` and for the
`CircularVoteBuffer` of `performance.rs`. -/
theorem c8_ring_buffer (T : Type) (c k : Nat) (l : List T)
    (hc : 1 ≤ c) (hlen : l.length = c + k) (hk : 0 < k) :
    ((CircularBuffer.pushList (CircularBuffer.new T c) l).size = c ∧
     CircularBuffer.iterList (CircularBuffer.pushList (CircularBuffer.new T c) l) =
       l.drop k ∧
     (l.drop k).length = c ∧
     (∀ l2 : List T,
       (CircularBuffer.pushList (CircularBuffer.new T c) l2).size ≤ c)) ∧
    (∀ lv : List ConfirmedVote, lv.length = c + k →
      (CircularVoteBuffer.pushList (CircularVoteBuffer.new c) lv).size = c ∧
      CircularVoteBuffer.iterList
          (CircularVoteBuffer.pushList (CircularVoteBuffer.new c) lv) =
        lv.drop k) := by
  have hgen : ∀ (S : Type) (ls : List S), ls.length = c + k →
      (CircularBuffer.pushList (CircularBuffer.new S c) ls).size = c ∧
      CircularBuffer.iterList (CircularBuffer.pushList (CircularBuffer.new S c) ls) =
        ls.drop k := by
    intro S ls hls
    have hc0 : 0 < (CircularBuffer.new S c).capacity := hc
    have hwf := CircularBuffer.WF_pushList (CircularBuffer.new S c) [] ls hc0
      (CircularBuffer.WF_new S c)
    rw [List.nil_append] at hwf
    have hcap : (CircularBuffer.pushList (CircularBuffer.new S c) ls).capacity = c :=
      CircularBuffer.capacity_pushList _ _
    have hsize : (CircularBuffer.pushList (CircularBuffer.new S c) ls).size =
        min ls.length c := by
      have := hwf.2.1
      rw [hcap] at this
      exact this
    refine ⟨by rw [hsize, hls]; omega, ?_⟩
    rw [CircularBuffer.iterList_WF _ ls (by rw [hcap]; exact hc) hwf, hsize, hls]
    congr 1
    omega
  refine ⟨⟨(hgen T l hlen).1, (hgen T l hlen).2, ?_, ?_⟩, ?_⟩
  · rw [List.length_drop, hlen]
    omega
  · intro l2
    have hwf := CircularBuffer.WF_pushList (CircularBuffer.new T c) [] l2 hc
      (CircularBuffer.WF_new T c)
    have hcap : (CircularBuffer.pushList (CircularBuffer.new T c) l2).capacity = c :=
      CircularBuffer.capacity_pushList _ _
    have := hwf.2.1
    rw [hcap] at this
    omega
  · intro lv hlv
    have h := hgen ConfirmedVote lv hlv
    have hs : (CircularVoteBuffer.pushList (CircularVoteBuffer.new c) lv).toCB =
        CircularBuffer.pushList (CircularBuffer.new ConfirmedVote c) lv := by
      rw [CircularVoteBuffer.toCB_pushList, CircularVoteBuffer.toCB_new]
    constructor
    · have hsz : (CircularVoteBuffer.pushList (CircularVoteBuffer.new c) lv).toCB.size = c := by
        rw [hs]
        exact h.1
      exact hsz
    · rw [CircularVoteBuffer.toCB_iterList, hs]
      exact h.2

/-- Witness for C8: capacity 2, three pushes, over `Nat`. -/
theorem c8_ring_buffer_witness :
    ((CircularBuffer.pushList (CircularBuffer.new Nat 2) [10, 11, 12]).size = 2 ∧
     CircularBuffer.iterList
         (CircularBuffer.pushList (CircularBuffer.new Nat 2) [10, 11, 12]) =
       [10, 11, 12].drop 1 ∧
     ([10, 11, 12].drop 1).length = 2 ∧
     (∀ l2 : List Nat,
       (CircularBuffer.pushList (CircularBuffer.new Nat 2) l2).size ≤ 2)) ∧
    (∀ lv : List ConfirmedVote, lv.length = 2 + 1 →
      (CircularVoteBuffer.pushList (CircularVoteBuffer.new 2) lv).size = 2 ∧
      CircularVoteBuffer.iterList
          (CircularVoteBuffer.pushList (CircularVoteBuffer.new 2) lv) =
        lv.drop 1) :=
  c8_ring_buffer Nat 2 1 [10, 11, 12] (by decide) (by decide) (by decide)

/-! ## Correlator theorems (claims C5, C2, C10) -/

/-- **C5.** `confirm_vote` with `finalized_slot < voted_slot` yields no
confirmation and returns the tracker completely unchanged (pending table,
confirmed ring, counters). -/
theorem c5_reject_invalid_slot_order (t : VoteTracker) (sig : String)
    (voted_slot finalized_slot : Slot) (now : Nat)
    (h : finalized_slot < voted_slot) :
    t.confirm_vote sig voted_slot finalized_slot now = (none, t) := by
  unfold VoteTracker.confirm_vote
  rw [if_pos h]

/-- Witness for C5: the spec scenario `voted_slot = 50, finalized_slot = 40`. -/
theorem c5_reject_invalid_slot_order_witness :
    (VoteTracker.new 0).confirm_vote "s" 50 40 7 = (none, VoteTracker.new 0) :=
  c5_reject_invalid_slot_order (VoteTracker.new 0) "s" 50 40 7 (by decide)

lemma lookupPending_removePending (m : List (String × PendingVote)) (k : String) :
    lookupPending (removePending m k) k = none := by
  induction m with
  | nil => rfl
  | cons e rest ih =>
    unfold removePending at ih ⊢
    rw [List.filter_cons]
    by_cases h : e.1 == k
    · simp only [h, Bool.not_true, if_false]
      exact ih
    · simp only [h, Bool.not_false, if_true]
      unfold lookupPending
      rw [if_neg (by simp [h])]
      exact ih

/-- The pending-hit branch of `confirm_vote` in closed form. -/
lemma confirm_vote_pending_hit (t : VoteTracker) (sig : String)
    (v f now : Nat) (p : PendingVote)
    (hf : ¬ f < v)
    (hl : lookupPending t.pending_votes sig = some p)
    (hc : p.voted_slots.contains v = true) :
    t.confirm_vote sig v f now =
      (some { signature := sig
              voted_slot := v
              finalized_slot := f
              latency := f - v
              tvc_credits := calculate_tvc_credits_from_latency (f - v)
              timestamp := now },
       { t with
           pending_votes := removePending t.pending_votes sig
           pending_count := t.pending_count - 1
           confirmed_votes := t.confirmed_votes.push
             { signature := sig
               voted_slot := v
               finalized_slot := f
               latency := f - v
               tvc_credits := calculate_tvc_credits_from_latency (f - v)
               timestamp := now } }) := by
  unfold VoteTracker.confirm_vote
  rw [if_neg hf, hl]
  simp only [hc, if_true]

/-- The no-pending (late-arriving) branch of `confirm_vote` in closed form:
a direct confirmation and NO state change. -/
lemma confirm_vote_no_pending (t : VoteTracker) (sig : String)
    (v f now : Nat)
    (hf : ¬ f < v)
    (hl : lookupPending t.pending_votes sig = none) :
    t.confirm_vote sig v f now =
      (some { signature := sig
              voted_slot := v
              finalized_slot := f
              latency := f - v
              tvc_credits := calculate_tvc_credits_from_latency (f - v)
              timestamp := now }, t) := by
  unfold VoteTracker.confirm_vote
  rw [if_neg hf, hl]
  rfl

/-- **C2.** If `sig` is pending with `100, 101 ∈ voted_slots`, then
`confirm(sig, 101, fin)` (with `fin ≥ 101`) succeeds with
`latency = fin - 101` and removes the WHOLE pending entry, so a subsequent
`confirm(sig, 100, fin2)` takes the no-pending direct path: it returns the
late-arriving confirmation computed from the two slots and mutates nothing. -/
theorem c2_confirm_removes_whole_entry (t : VoteTracker) (sig : String)
    (p : PendingVote) (fin now : Nat)
    (hlook : lookupPending t.pending_votes sig = some p)
    (h100 : p.voted_slots.contains 100 = true)
    (h101 : p.voted_slots.contains 101 = true)
    (hfin : 101 ≤ fin) :
    ∃ cv t1,
      t.confirm_vote sig 101 fin now = (some cv, t1) ∧
      cv.latency = fin - 101 ∧
      cv.voted_slot = 101 ∧
      cv.finalized_slot = fin ∧
      lookupPending t1.pending_votes sig = none ∧
      (∀ fin2 now2, 100 ≤ fin2 →
        t1.confirm_vote sig 100 fin2 now2 =
          (some { signature := sig
                  voted_slot := 100
                  finalized_slot := fin2
                  latency := fin2 - 100
                  tvc_credits := calculate_tvc_credits_from_latency (fin2 - 100)
                  timestamp := now2 }, t1)) := by
  refine ⟨_, _,
    confirm_vote_pending_hit t sig 101 fin now p
      (Nat.not_lt.mpr hfin) hlook h101,
    rfl, rfl, rfl, ?_, ?_⟩
  · show lookupPending (removePending t.pending_votes sig) sig = none
    exact lookupPending_removePending t.pending_votes sig
  · intro fin2 now2 hfin2
    exact confirm_vote_no_pending _ sig 100 fin2 now2
      (Nat.not_lt.mpr hfin2)
      (lookupPending_removePending t.pending_votes sig)

/-- Witness for C2: the concrete tracker with `voted_slots = [100, 101]`,
first confirmation at `fin = 105`, second at `fin2 = 110`. -/
theorem c2_confirm_removes_whole_entry_witness :
    ∃ cv t1,
      c2Tracker.confirm_vote "s" 101 105 0 = (some cv, t1) ∧
      cv.latency = 105 - 101 ∧
      cv.voted_slot = 101 ∧
      cv.finalized_slot = 105 ∧
      lookupPending t1.pending_votes "s" = none ∧
      (∀ fin2 now2, 100 ≤ fin2 →
        t1.confirm_vote "s" 100 fin2 now2 =
          (some { signature := "s"
                  voted_slot := 100
                  finalized_slot := fin2
                  latency := fin2 - 100
                  tvc_credits := calculate_tvc_credits_from_latency (fin2 - 100)
                  timestamp := now2 }, t1)) :=
  c2_confirm_removes_whole_entry c2Tracker "s" c2p 105 0 rfl (by decide)
    (by decide) (by decide)

lemma get_or_insert_isSome (c : SignatureCache) (bytes : List Nat)
    (h : 64 ≤ bytes.length) :
    ∃ r, c.get_or_insert bytes = some r := by
  unfold SignatureCache.get_or_insert
  rw [if_neg (show ¬ bytes.length < 64 from by omega)]
  cases hl : lookupAssoc c.cache (bytes.take 64) with
  | some cached => exact ⟨_, rfl⟩
  | none => exact ⟨_, rfl⟩

lemma get_or_cache_isSome (t : VoteTracker) (bytes : List Nat)
    (h : 64 ≤ bytes.length) :
    ∃ r, t.get_or_cache_signature bytes = some r := by
  unfold VoteTracker.get_or_cache_signature
  obtain ⟨r, hr⟩ := get_or_insert_isSome t.signature_cache bytes h
  rw [hr]
  exact ⟨_, rfl⟩

/-- **C10.** `get_or_insert` (and `get_or_cache_signature`) succeeds for any
input of at least 64 bytes and its result depends only on the first 64
bytes; for inputs shorter than 64 bytes the fixed-size `copy_from_slice`
panics (modelled as `none`). -/
theorem c10_signature_cache_panics_short :
    (∀ (c : SignatureCache) (bytes : List Nat), bytes.length < 64 →
      c.get_or_insert bytes = none) ∧
    (∀ (c : SignatureCache) (bytes : List Nat), 64 ≤ bytes.length →
      ∃ r, c.get_or_insert bytes = some r) ∧
    (∀ (c : SignatureCache) (b1 b2 : List Nat), 64 ≤ b1.length →
      64 ≤ b2.length → b1.take 64 = b2.take 64 →
      c.get_or_insert b1 = c.get_or_insert b2) ∧
    (∀ (t : VoteTracker) (bytes : List Nat), bytes.length < 64 →
      t.get_or_cache_signature bytes = none) ∧
    (∀ (t : VoteTracker) (bytes : List Nat), 64 ≤ bytes.length →
      ∃ r, t.get_or_cache_signature bytes = some r) := by
  refine ⟨?_, fun c bytes h => get_or_insert_isSome c bytes h, ?_, ?_,
    fun t bytes h => get_or_cache_isSome t bytes h⟩
  · intro c bytes h
    unfold SignatureCache.get_or_insert
    rw [if_pos h]
  · intro c b1 b2 h1 h2 hteq
    unfold SignatureCache.get_or_insert
    rw [if_neg (show ¬ b1.length < 64 from by omega),
      if_neg (show ¬ b2.length < 64 from by omega), hteq]
  · intro t bytes h
    unfold VoteTracker.get_or_cache_signature SignatureCache.get_or_insert
    rw [if_pos h]

/-- Witness for C10: a 64-byte input succeeds, a 63-byte input panics. -/
theorem c10_signature_cache_panics_short_witness :
    (∃ r, (SignatureCache.new 2048).get_or_insert (List.replicate 64 7) = some r) ∧
    (SignatureCache.new 2048).get_or_insert (List.replicate 63 7) = none ∧
    (∃ r, (VoteTracker.new 0).get_or_cache_signature (List.replicate 64 7) = some r) ∧
    (VoteTracker.new 0).get_or_cache_signature (List.replicate 63 7) = none :=
  ⟨c10_signature_cache_panics_short.2.1 _ _ (by simp),
   c10_signature_cache_panics_short.1 _ _ (by simp),
   c10_signature_cache_panics_short.2.2.2.2 _ _ (by simp),
   c10_signature_cache_panics_short.2.2.2.1 _ _ (by simp)⟩

/-! ## Pending-sweep theorems (claim C6) -/

lemma lookupPending_cons (e : String × PendingVote)
    (rest : List (String × PendingVote)) (k : String) :
    lookupPending (e :: rest) k =
      if e.1 == k then some e.2 else lookupPending rest k := rfl

lemma lookupPending_eq_none_of_not_mem (m : List (String × PendingVote))
    (k : String) (h : k ∉ m.map Prod.fst) :
    lookupPending m k = none := by
  induction m with
  | nil => rfl
  | cons e rest ih =>
    simp only [List.map_cons, List.mem_cons, not_or] at h
    rw [lookupPending_cons, if_neg (by simp [Ne.symm h.1])]
    exact ih h.2

lemma lookupPending_filter (m : List (String × PendingVote))
    (q : PendingVote → Bool) (k : String) (p : PendingVote)
    (hnd : (m.map Prod.fst).Nodup) :
    lookupPending (m.filter (fun e => q e.2)) k = some p ↔
      (lookupPending m k = some p ∧ q p = true) := by
  induction m with
  | nil => simp [lookupPending]
  | cons e rest ih =>
    have hnd2 : (rest.map Prod.fst).Nodup := (List.nodup_cons.mp (by simpa using hnd)).2
    have hnin : e.1 ∉ rest.map Prod.fst := (List.nodup_cons.mp (by simpa using hnd)).1
    rw [List.filter_cons]
    by_cases hq : q e.2
    · rw [if_pos (by simpa using hq)]
      rw [lookupPending_cons, lookupPending_cons]
      by_cases hk : e.1 == k
      · rw [if_pos hk, if_pos hk]
        constructor
        · intro he
          exact ⟨he, by rw [← Option.some.inj he]; exact hq⟩
        · intro he
          exact he.1
      · rw [if_neg (by simp_all), if_neg (by simp_all)]
        exact ih hnd2
    · rw [if_neg (by simpa using hq)]
      by_cases hk : e.1 == k
      · have hkeq : e.1 = k := by simpa using hk
        have hnone : lookupPending (rest.filter (fun e => q e.2)) k = none := by
          apply lookupPending_eq_none_of_not_mem
          intro hmem
          apply hnin
          rw [hkeq]
          obtain ⟨x, hx, hx1⟩ := List.mem_map.mp hmem
          exact List.mem_map.mpr ⟨x, List.mem_of_mem_filter hx, hx1⟩
        rw [hnone, lookupPending_cons, if_pos hk]
        constructor
        · intro hcon
          cases hcon
        · rintro ⟨he, hqp⟩
          rw [← Option.some.inj he] at hqp
          rw [hqp] at hq
          cases hq rfl
      · rw [lookupPending_cons, if_neg (by simp_all)]
        exact ih hnd2

/-- **C6 (amended).** The sweep runs on a pending insertion exactly when 60
seconds have elapsed since the last sweep, and removes exactly the pending
entries whose `transaction_slot` is at most
`most_recently_processed_slot - 100` (saturating), where the base slot is the
LAST slot the processed-slots ring iterator yields — the most recently pushed
slot, NOT the maximum slot observed. -/
theorem c6_sweep_cutoff_most_recent :
    (∀ (t : VoteTracker) (now : Nat) (sig : String) (p : PendingVote),
      (t.pending_votes.map Prod.fst).Nodup →
      (lookupPending (t.cleanup_old_pending now).pending_votes sig = some p ↔
        (lookupPending t.pending_votes sig = some p ∧
          ((CircularBuffer.iterList t.processed_slots).getLast?.getD 0) - 100 <
            p.transaction_slot))) ∧
    (∀ (t : VoteTracker) (pv : PendingVote) (now : Nat),
      60 ≤ now - t.last_cleanup_time →
      t.add_pending_vote pv now =
        VoteTracker.cleanup_old_pending
          { t with
              pending_votes := insertPending t.pending_votes pv.signature pv
              pending_count := t.pending_count + 1 } now) ∧
    (∀ (t : VoteTracker) (pv : PendingVote) (now : Nat),
      now - t.last_cleanup_time < 60 →
      t.add_pending_vote pv now =
        { t with
            pending_votes := insertPending t.pending_votes pv.signature pv
            pending_count := t.pending_count + 1 }) := by
  refine ⟨?_, ?_, ?_⟩
  · intro t now sig p hnd
    exact lookupPending_filter t.pending_votes
      (fun q => decide (((CircularBuffer.iterList t.processed_slots).getLast?.getD 0)
        - 100 < q.transaction_slot)) sig p hnd |>.trans (by simp)
  · intro t pv now h
    unfold VoteTracker.add_pending_vote
    dsimp only
    rw [if_pos h]
  · intro t pv now h
    unfold VoteTracker.add_pending_vote
    dsimp only
    rw [if_neg (by omega)]

/-- Witness for C6: the sweep-membership characterization at the concrete
`c6Tracker`, plus both trigger branches at a fresh tracker. -/
theorem c6_sweep_cutoff_most_recent_witness :
    ((lookupPending (c6Tracker.cleanup_old_pending 0).pending_votes "sig1" =
        some c6Pending ↔
      (lookupPending c6Tracker.pending_votes "sig1" = some c6Pending ∧
        ((CircularBuffer.iterList c6Tracker.processed_slots).getLast?.getD 0) - 100 <
          c6Pending.transaction_slot)) ∧
     (VoteTracker.new 0).add_pending_vote c6Pending 60 =
       VoteTracker.cleanup_old_pending
         { VoteTracker.new 0 with
             pending_votes :=
               insertPending (VoteTracker.new 0).pending_votes c6Pending.signature c6Pending
             pending_count := (VoteTracker.new 0).pending_count + 1 } 60 ∧
     (VoteTracker.new 0).add_pending_vote c6Pending 10 =
       { VoteTracker.new 0 with
           pending_votes :=
             insertPending (VoteTracker.new 0).pending_votes c6Pending.signature c6Pending
           pending_count := (VoteTracker.new 0).pending_count + 1 }) :=
  ⟨c6_sweep_cutoff_most_recent.1 c6Tracker 0 "sig1" c6Pending (by decide),
   c6_sweep_cutoff_most_recent.2.1 (VoteTracker.new 0) c6Pending 60 (by decide),
   c6_sweep_cutoff_most_recent.2.2 (VoteTracker.new 0) c6Pending 10 (by decide)⟩

/-- **C6 counterexample.** In `c6Tracker` the ring was pushed 200 then 150:
the largest processed slot seen is 200, so the claim's cutoff would be 100
and the pending entry at transaction slot 80 would be removed; but the code
bases the cutoff on the LAST iterated slot 150 (cutoff 50) and KEEPS the
entry. -/
theorem c6_sweep_cutoff_most_recent_counterexample :
    maxProcessedSlot c6Tracker = 200 ∧
    (CircularBuffer.iterList c6Tracker.processed_slots).getLast?.getD 0 = 150 ∧
    c6Pending.transaction_slot ≤ maxProcessedSlot c6Tracker - 100 ∧
    lookupPending (c6Tracker.cleanup_old_pending 0).pending_votes "sig1" =
      some c6Pending := by
  refine ⟨by decide, by decide, by decide, by decide⟩

/-! ## Parse-error propagation (claim C3) -/

/-- **C3 (amended).** A malformed vote-program instruction payload produces a
typed parse error that aborts the ENTIRE current update: in transaction
intake the error propagates out of the instruction loop (arbitrary remaining
instructions are skipped and no pending state from them is recorded), and in
block processing it propagates out of `process_finalized_block` (arbitrary
remaining instructions and transactions of that block are skipped).  The
caller then drops just that one update. -/
theorem c3_parse_error_aborts_update :
    (∀ (ak : List (List Nat)) (i : Nat) (rest : List CompiledInstruction)
        (sig : String) (slot : Slot) (t : VoteTracker) (now : Nat) (e : String),
      ak[i]? = some VOTE_PROGRAM_ID →
      processTxInstructions ak
          ({ program_id_index := i, data := .malformed e } :: rest) sig slot t now =
        some (.error ("failed to deserialize vote instruction: " ++ e))) ∧
    (∀ (ak : List (List Nat)) (i : Nat) (rest : List CompiledInstruction)
        (sig : String) (fs : Slot) (t : VoteTracker) (now : Nat) (e : String),
      ak[i]? = some VOTE_PROGRAM_ID →
      processBlockInstructions ak
          ({ program_id_index := i, data := .malformed e } :: rest) sig fs t now =
        .error ("failed to deserialize vote instruction: " ++ e)) ∧
    (∀ (fs : Slot) (txrest : List BlockTransactionInfo) (ak : List (List Nat))
        (i : Nat) (irest : List CompiledInstruction) (sigbytes : List Nat)
        (va : String) (t : VoteTracker) (now : Nat) (e : String),
      64 ≤ sigbytes.length →
      t.has_processed_slot fs = false →
      ak[i]? = some VOTE_PROGRAM_ID →
      process_finalized_block
          { slot := fs
            transactions :=
              { transaction := some
                  { signatures := [sigbytes]
                    message := some
                      { account_keys := ak
                        instructions :=
                          { program_id_index := i, data := .malformed e } :: irest } } }
                :: txrest }
          va t now =
        some (.error ("failed to deserialize vote instruction: " ++ e))) := by
  have hblock : ∀ (ak : List (List Nat)) (i : Nat) (rest : List CompiledInstruction)
      (sig : String) (fs : Slot) (t : VoteTracker) (now : Nat) (e : String),
      ak[i]? = some VOTE_PROGRAM_ID →
      processBlockInstructions ak
          ({ program_id_index := i, data := .malformed e } :: rest) sig fs t now =
        .error ("failed to deserialize vote instruction: " ++ e) := by
    intro ak i rest sig fs t now e h
    rw [processBlockInstructions]
    simp only [h, beq_self_eq_true, if_true, parse_vote_instruction_data]
  refine ⟨?_, hblock, ?_⟩
  · intro ak i rest sig slot t now e h
    rw [processTxInstructions]
    simp only [h, beq_self_eq_true, if_true, parse_vote_instruction_data]
  · intro fs txrest ak i irest sigbytes va t now e hlen hproc hak
    unfold process_finalized_block
    dsimp only
    rw [hproc]
    simp only [Bool.false_eq_true, if_false]
    rw [processBlockTxs]
    obtain ⟨⟨s, t1⟩, hg⟩ :=
      get_or_cache_isSome (t.mark_slot_processed fs) sigbytes hlen
    simp only [List.head?, hg]
    unfold process_transaction_in_block
    dsimp only
    rw [hblock ak i irest s fs t1 now e hak]

/-- Witness for C3 (amended): concrete instantiations of all three levels. -/
theorem c3_parse_error_aborts_update_witness :
    (processTxInstructions [VOTE_PROGRAM_ID]
        ({ program_id_index := 0, data := .malformed "bad" } ::
          [{ program_id_index := 0, data := .vote [100] }]) "s" 100
        (VoteTracker.new 0) 0 =
      some (.error ("failed to deserialize vote instruction: " ++ "bad"))) ∧
    (processBlockInstructions [VOTE_PROGRAM_ID]
        ({ program_id_index := 0, data := .malformed "bad" } ::
          [{ program_id_index := 0, data := .vote [100] }]) "s" 105
        (VoteTracker.new 0) 0 =
      .error ("failed to deserialize vote instruction: " ++ "bad")) ∧
    (process_finalized_block
        { slot := 105
          transactions :=
            { transaction := some
                { signatures := [sigBytes 1]
                  message := some
                    { account_keys := [VOTE_PROGRAM_ID]
                      instructions :=
                        { program_id_index := 0, data := .malformed "bad" } ::
                          [{ program_id_index := 0, data := .vote [100] }] } } }
              :: (c3GoodBlock.transactions) }
        "va" (VoteTracker.new 0) 0 =
      some (.error ("failed to deserialize vote instruction: " ++ "bad"))) :=
  ⟨c3_parse_error_aborts_update.1 [VOTE_PROGRAM_ID] 0 _ "s" 100
      (VoteTracker.new 0) 0 "bad" (by decide),
   c3_parse_error_aborts_update.2.1 [VOTE_PROGRAM_ID] 0 _ "s" 105
      (VoteTracker.new 0) 0 "bad" (by decide),
   c3_parse_error_aborts_update.2.2 105 c3GoodBlock.transactions
      [VOTE_PROGRAM_ID] 0 _ (sigBytes 1) "va" (VoteTracker.new 0) 0 "bad"
      (by decide) (by decide) (by decide)⟩

/-- **C3 counterexample.** A block whose first transaction has a malformed
instruction and whose second transaction would confirm a vote: the code
aborts the WHOLE block with a typed error and never reaches the second
transaction, whereas processing the second transaction alone yields one
confirmation — so a decode error does abort block processing wholesale. -/
theorem c3_parse_error_aborts_update_counterexample :
    process_finalized_block c3Block "va" (VoteTracker.new 0) 0 =
      some (.error "failed to deserialize vote instruction: bad") ∧
    confirmedCount (process_finalized_block c3GoodBlock "va" (VoteTracker.new 0) 0) =
      some 1 := by
  exact ⟨by decide, by decide⟩

/-! ## First-confirmation early return (claim C7) -/

/-- **C7 (amended).** When processing a vote-program instruction of a block
transaction, the decoded new-vote slots are offered to `confirm_vote` in
order only UP TO the first slot that yields a confirmation: that confirmation
is returned immediately (at most one `ConfirmedVote` per transaction) and the
remaining slots are never offered; slots that are not new votes are skipped,
and a slot on which `confirm_vote` yields nothing passes control to the next
slot. -/
theorem c7_stops_at_first_confirmation :
    (∀ (sig : String) (fs now : Nat) (a : Slot) (rest : List VoteSlotInfo)
        (t t1 : VoteTracker) (cv : ConfirmedVote),
      t.confirm_vote sig a fs now = (some cv, t1) →
      confirmSlots sig fs now ({ slot := a, confirmation_count := some 1 } :: rest) t =
        (some cv, t1)) ∧
    (∀ (sig : String) (fs now : Nat) (a : Slot) (rest : List VoteSlotInfo)
        (t t1 : VoteTracker),
      t.confirm_vote sig a fs now = (none, t1) →
      confirmSlots sig fs now ({ slot := a, confirmation_count := some 1 } :: rest) t =
        confirmSlots sig fs now rest t1) ∧
    (∀ (sig : String) (fs now : Nat) (vi : VoteSlotInfo) (rest : List VoteSlotInfo)
        (t : VoteTracker),
      vi.is_new_vote = false →
      confirmSlots sig fs now (vi :: rest) t = confirmSlots sig fs now rest t) := by
  refine ⟨?_, ?_, ?_⟩
  · intro sig fs now a rest t t1 cv h
    rw [confirmSlots]
    simp only [VoteSlotInfo.is_new_vote, beq_self_eq_true, if_true, h]
  · intro sig fs now a rest t t1 h
    rw [confirmSlots]
    simp only [VoteSlotInfo.is_new_vote, beq_self_eq_true, if_true, h]
  · intro sig fs now vi rest t h
    rw [confirmSlots]
    simp only [h, Bool.false_eq_true, if_false]

/-- Witness for C7 (amended): a fresh tracker accepts slot 100 directly, so
slot 101 is never offered; a rejected pair (finalized before voted) passes to
the next slot; a tower entry is skipped. -/
theorem c7_stops_at_first_confirmation_witness :
    (confirmSlots "s" 105 0
        ({ slot := 100, confirmation_count := some 1 } ::
          [{ slot := 101, confirmation_count := some 1 }]) (VoteTracker.new 0) =
      (some { signature := "s"
              voted_slot := 100
              finalized_slot := 105
              latency := 5
              tvc_credits := 13
              timestamp := 0 }, VoteTracker.new 0)) ∧
    (confirmSlots "s" 90 0
        ({ slot := 100, confirmation_count := some 1 } ::
          [{ slot := 80, confirmation_count := some 1 }]) (VoteTracker.new 0) =
      confirmSlots "s" 90 0 [{ slot := 80, confirmation_count := some 1 }]
        (VoteTracker.new 0)) ∧
    (confirmSlots "s" 105 0
        ({ slot := 100, confirmation_count := some 3 } :: []) (VoteTracker.new 0) =
      confirmSlots "s" 105 0 [] (VoteTracker.new 0)) :=
  ⟨c7_stops_at_first_confirmation.1 "s" 105 0 100 _ (VoteTracker.new 0)
      (VoteTracker.new 0) _ (by decide),
   c7_stops_at_first_confirmation.2.1 "s" 90 0 100 _ (VoteTracker.new 0)
      (VoteTracker.new 0) (by decide),
   c7_stops_at_first_confirmation.2.2 "s" 105 0
      { slot := 100, confirmation_count := some 3 } [] (VoteTracker.new 0)
      (by decide)⟩

/-- **C7 counterexample.** A block instruction carrying two new-vote slots
(100 and 101), both of which `confirm_vote` accepts on a fresh tracker: the
code confirms only slot 100 (the early return), while offering every slot as
the claim states would confirm both. -/
theorem c7_stops_at_first_confirmation_counterexample :
    votedSlotsOf (process_finalized_block c7Block "va" (VoteTracker.new 0) 0) =
      [100] ∧
    ((confirmSlotsSpec "s" 105 0
        [{ slot := 100, confirmation_count := some 1 },
         { slot := 101, confirmation_count := some 1 }] (VoteTracker.new 0)).1.map
      (fun cv => cv.voted_slot)) = [100, 101] := by
  exact ⟨by decide, by decide⟩

/-! ## Idempotent block processing (claim C4) -/

lemma confirm_vote_processed_eq (t : VoteTracker) (sig : String)
    (v f now : Nat) :
    ((t.confirm_vote sig v f now).2).processed_slots = t.processed_slots := by
  unfold VoteTracker.confirm_vote
  by_cases hf : f < v
  · rw [if_pos hf]
  · rw [if_neg hf]
    cases hl : lookupPending t.pending_votes sig with
    | some p =>
      cases hc : p.voted_slots.contains v with
      | true => simp only [hc, if_true]
      | false => simp only [hc, Bool.false_eq_true, if_false]
    | none => rfl

lemma confirmSlots_processed_eq (sig : String) (fs now : Nat) :
    ∀ (slots : List VoteSlotInfo) (t : VoteTracker),
      ((confirmSlots sig fs now slots t).2).processed_slots = t.processed_slots := by
  intro slots
  induction slots with
  | nil => intro t; rfl
  | cons vi rest ih =>
    intro t
    rw [confirmSlots]
    cases hn : vi.is_new_vote with
    | false =>
      simp only [Bool.false_eq_true, if_false]
      exact ih t
    | true =>
      simp only [if_true]
      have hp := confirm_vote_processed_eq t sig vi.slot fs now
      cases hcv : t.confirm_vote sig vi.slot fs now with
      | mk o t1 =>
        rw [hcv] at hp
        cases o with
        | some c => exact hp
        | none => exact (ih t1).trans hp

lemma processBlockInstructions_processed_eq (ak : List (List Nat))
    (sig : String) (fs now : Nat) :
    ∀ (instrs : List CompiledInstruction) (t : VoteTracker)
      (r : Option ConfirmedVote × VoteTracker),
      processBlockInstructions ak instrs sig fs t now = .ok r →
      r.2.processed_slots = t.processed_slots := by
  intro instrs
  induction instrs with
  | nil =>
    intro t r h
    rw [processBlockInstructions] at h
    cases h
    rfl
  | cons instruction rest ih =>
    intro t r h
    rw [processBlockInstructions] at h
    cases hak : ak[instruction.program_id_index]? with
    | none =>
      rw [hak] at h
      dsimp only at h
      exact ih t r h
    | some pa =>
      rw [hak] at h
      dsimp only at h
      by_cases hpa : pa == VOTE_PROGRAM_ID
      · rw [if_pos hpa] at h
        cases hp : parse_vote_instruction_data instruction.data with
        | error e => rw [hp] at h; cases h
        | ok slots =>
          rw [hp] at h
          dsimp only at h
          have hcs := confirmSlots_processed_eq sig fs now slots t
          cases hc : confirmSlots sig fs now slots t with
          | mk o t1 =>
            rw [hc] at h hcs
            cases o with
            | some c =>
              cases h
              exact hcs
            | none => exact (ih t1 r h).trans hcs
      · rw [if_neg hpa] at h
        exact ih t r h

lemma get_or_cache_processed_eq (t : VoteTracker) (bytes : List Nat)
    (r : String × VoteTracker)
    (h : t.get_or_cache_signature bytes = some r) :
    r.2.processed_slots = t.processed_slots := by
  unfold VoteTracker.get_or_cache_signature at h
  cases hg : t.signature_cache.get_or_insert bytes with
  | none => rw [hg] at h; cases h
  | some p =>
    obtain ⟨s, c⟩ := p
    rw [hg] at h
    cases h
    rfl

lemma processBlockTxs_processed_eq (va : String) (fs now : Nat) :
    ∀ (txs : List BlockTransactionInfo) (acc : List ConfirmedVote)
      (t : VoteTracker) (r : List ConfirmedVote × VoteTracker),
      processBlockTxs va fs now txs acc t = some (.ok r) →
      r.2.processed_slots = t.processed_slots := by
  intro txs
  induction txs with
  | nil =>
    intro acc t r h
    rw [processBlockTxs] at h
    cases h
    rfl
  | cons tx_info rest ih =>
    intro acc t r h
    rw [processBlockTxs] at h
    cases htx : tx_info.transaction with
    | none =>
      rw [htx] at h
      dsimp only at h
      exact ih acc t r h
    | some transaction =>
      rw [htx] at h
      dsimp only at h
      cases hsig : transaction.signatures.head? with
      | none =>
        rw [hsig] at h
        dsimp only at h
        exact ih acc t r h
      | some sigbytes =>
        rw [hsig] at h
        dsimp only at h
        cases hg : t.get_or_cache_signature sigbytes with
        | none => rw [hg] at h; cases h
        | some p =>
          obtain ⟨s, t1⟩ := p
          rw [hg] at h
          dsimp only at h
          have hgp := get_or_cache_processed_eq t sigbytes (s, t1) hg
          cases hb : process_transaction_in_block transaction s fs va t1 now with
          | error e => rw [hb] at h; cases h
          | ok q =>
            obtain ⟨o, t2⟩ := q
            rw [hb] at h
            have hbp : t2.processed_slots = t1.processed_slots := by
              unfold process_transaction_in_block at hb
              cases hm : transaction.message with
              | none =>
                rw [hm] at hb
                cases hb
                rfl
              | some message =>
                rw [hm] at hb
                exact processBlockInstructions_processed_eq
                  message.account_keys s fs now message.instructions t1 (o, t2) hb
            cases o with
            | some c =>
              exact (ih (acc ++ [c]) t2 r h).trans (hbp.trans hgp)
            | none =>
              exact (ih acc t2 r h).trans (hbp.trans hgp)

lemma mem_iterList_push (b : CircularBuffer Slot) (hw : RingWF b) (s : Slot) :
    s ∈ CircularBuffer.iterList (b.push s) := by
  obtain ⟨hc, l, hwf⟩ := hw
  have h2 := CircularBuffer.WF_push b l s hc hwf
  have hcap : (b.push s).capacity = b.capacity := CircularBuffer.capacity_push b s
  have hil := CircularBuffer.iterList_WF (b.push s) (l ++ [s])
    (by rw [hcap]; exact hc) h2
  rw [hil]
  have hsz : (b.push s).size = min (l.length + 1) b.capacity := by
    have := h2.2.1
    rw [hcap] at this
    simpa using this
  have hdlen : (l ++ [s]).length - (b.push s).size ≤ l.length := by
    rw [List.length_append, List.length_singleton]
    omega
  rw [List.drop_append_of_le_length (by simpa using hdlen)]
  exact List.mem_append_right _ (List.mem_singleton.mpr rfl)

lemma push_preserves_RingWF (b : CircularBuffer Slot) (hw : RingWF b) (s : Slot) :
    RingWF (b.push s) := by
  obtain ⟨hc, l, hwf⟩ := hw
  exact ⟨by rw [CircularBuffer.capacity_push]; exact hc, l ++ [s],
    CircularBuffer.WF_push b l s hc hwf⟩

/-- After a successful `process_finalized_block` call, the block's slot is in
the processed ring. -/
lemma process_finalized_block_marks (block : SubscribeUpdateBlock) (va : String)
    (t0 : VoteTracker) (now : Nat) (vs : List ConfirmedVote) (t1 : VoteTracker)
    (hw : RingWF t0.processed_slots)
    (h : process_finalized_block block va t0 now = some (.ok (vs, t1))) :
    t1.has_processed_slot block.slot = true := by
  unfold process_finalized_block at h
  by_cases hp : t0.has_processed_slot block.slot
  · rw [if_pos (by simpa using hp)] at h
    cases h
    exact hp
  · rw [if_neg (by simpa using hp)] at h
    have hpr := processBlockTxs_processed_eq va block.slot now block.transactions
      [] (t0.mark_slot_processed block.slot) (vs, t1) h
    unfold VoteTracker.has_processed_slot
    have hmark : (t0.mark_slot_processed block.slot).processed_slots =
        t0.processed_slots.push block.slot := rfl
    rw [hpr, hmark]
    have hmem := mem_iterList_push t0.processed_slots hw block.slot
    exact List.any_eq_true.mpr ⟨block.slot, hmem, by simp⟩

/-- **C4.** Reprocessing a finalized slot that is still in the processed ring
returns an empty confirmation list and the tracker unchanged, and feeding the
empty list to the aggregator leaves every counter unchanged; in particular a
second `process_finalized_block` call for the same block (after any
successful first call, on a well-formed ring) is a no-op. -/
theorem c4_block_processing_idempotent :
    (∀ (block : SubscribeUpdateBlock) (va : String) (t : VoteTracker) (now : Nat)
        (s : PerformanceStats),
      t.has_processed_slot block.slot = true →
      process_finalized_block block va t now = some (.ok ([], t)) ∧
      recordConfirmedVotes s [] = s) ∧
    (∀ (block : SubscribeUpdateBlock) (va : String) (t0 : VoteTracker)
        (now1 now2 : Nat) (vs : List ConfirmedVote) (t1 : VoteTracker)
        (s : PerformanceStats),
      RingWF t0.processed_slots →
      process_finalized_block block va t0 now1 = some (.ok (vs, t1)) →
      process_finalized_block block va t1 now2 = some (.ok ([], t1)) ∧
      recordConfirmedVotes s [] = s) := by
  have hfirst : ∀ (block : SubscribeUpdateBlock) (va : String) (t : VoteTracker)
      (now : Nat),
      t.has_processed_slot block.slot = true →
      process_finalized_block block va t now = some (.ok ([], t)) := by
    intro block va t now h
    unfold process_finalized_block
    dsimp only
    rw [h]
    simp
  refine ⟨fun block va t now s h => ⟨hfirst block va t now h, rfl⟩, ?_⟩
  intro block va t0 now1 now2 vs t1 s hw h
  exact ⟨hfirst block va t1 now2
    (process_finalized_block_marks block va t0 now1 vs t1 hw h), rfl⟩

/-- Witness for C4: `markedTracker` has processed slot 105; reprocessing the
105-block is a no-op, both directly and as a second call. -/
theorem c4_block_processing_idempotent_witness :
    (process_finalized_block c3GoodBlock "va" markedTracker 1 =
        some (.ok ([], markedTracker)) ∧
      recordConfirmedVotes emptyStats [] = emptyStats) ∧
    (process_finalized_block c3GoodBlock "va" markedTracker 2 =
        some (.ok ([], markedTracker)) ∧
      recordConfirmedVotes emptyStats [] = emptyStats) :=
  ⟨c4_block_processing_idempotent.1 c3GoodBlock "va" markedTracker 1 emptyStats
      (by decide),
   c4_block_processing_idempotent.2 c3GoodBlock "va" markedTracker 1 2 []
      markedTracker emptyStats
      ⟨by decide, [105], CircularBuffer.WF_push (CircularBuffer.new Slot 50) [] 105
        (by decide) (CircularBuffer.WF_new Slot 50)⟩
      (by decide)⟩

end Voteperfx
